import Mathlib

/-! # Role definitions of the PostgreSQL secret backend

A shallow embedding of `builtin/logical/postgresql/path_roles.go`: the role
lookup `Role` and the three request handlers `pathRoleRead`, `pathRoleCreate`
and `pathRoleDelete`.

Go values are embedded as follows.

* A Go `string` is a sequence of bytes. It is embedded as the `String` that has
  one character per byte, the character whose code is the byte, so that text
  in ASCII reads as itself and a byte from 80 to FF is written `\x80` to
  `\xff`. An `error` is the text of its message.
* A pair `(*T, error)` returned by a function is a pair of options, `none`
  standing for `nil`.
* The storage of the request is passed in and handed back explicitly.
* Every call a function makes to one of its collaborators (the database, the
  prepared statement, the storage) is recorded, in program order, in the list
  of calls it returns.
-/

set_option maxRecDepth 8000

namespace Postgresql

/-! ## Data model -/

/-- The message of a Go `error` value, as printed by the verb `%s`. -/
abbrev Err := String

/-- The handle of a prepared statement (`*sql.Stmt`). -/
abbrev Stmt := Nat

/-- The record `roleEntry` persisted for a role: one field, tagged `sql`. -/
structure roleEntry where
  SQL : String
deriving DecidableEq, Repr

/-- The type `logical.StorageEntry`: a key and the bytes stored under it. -/
structure StorageEntry where
  Key : String
  Value : String
deriving DecidableEq, Repr

/-- The type `logical.Response`, restricted to the two fields this file sets. -/
structure Response where
  IsError : Bool
  Data : List (String × String)
deriving DecidableEq, Repr

/-- Modelled from the spec: the storage medium behind `logical.Storage`, whose
implementations are not part of this file. It is a key-value map keyed by
string with atomic get, put and delete, each of which may fail: `getErr`,
`putErr` and `deleteErr` give, per key, the failure of the medium, if any. -/
structure Storage where
  data : String → Option String
  getErr : String → Option Err
  putErr : String → Option Err
  deleteErr : String → Option Err

/-- A call made to a collaborator. `exec` is the execution of a prepared
statement, which the database interface offers besides `prepare` and `close`. -/
inductive Event where
  | connect : Event
  | prepare : String → Event
  | exec : Stmt → Event
  | close : Stmt → Event
  | get : String → Event
  | put : String → String → Event
  | delete : String → Event
deriving DecidableEq, Repr

/-- The connection `*sql.DB`, as far as this file uses it: `Prepare`. -/
structure DB where
  Prepare : String → Except Err Stmt

/-- The backend with the collaborators that are defined outside this file,
taken as parameters: `DB` is the method `b.DB`, which yields the connection or
an error; `encodeJSON` and `decodeJSON` are the JSON encoder and decoder that
`logical.StorageEntryJSON` and `StorageEntry.DecodeJSON` run on a `roleEntry`. -/
structure backend where
  DB : Storage → Except Err DB
  encodeJSON : roleEntry → Except Err String
  decodeJSON : String → Except Err roleEntry

/-- What a function hands back: its Go return values, the storage as it is
after the call, and the calls it made to its collaborators, in order. -/
structure Ret (α : Type) where
  val : α
  st : Storage
  calls : List Event

/-! ## Collaborators -/

/-- Modelled from the spec: `Storage.Get`, get the entry under a key; absent
(`none`) when no record exists, an error when the medium fails. -/
def Storage.Get (s : Storage) (k : String) : Except Err (Option StorageEntry) :=
  match s.getErr k with
  | some e => .error e
  | none => .ok ((s.data k).map (StorageEntry.mk k))

/-- Modelled from the spec: `Storage.Put`, write the entry, replacing any
prior value under its key; nothing is written when the medium fails. -/
def Storage.Put (s : Storage) (e : StorageEntry) : Option Err × Storage :=
  match s.putErr e.Key with
  | some err => (some err, s)
  | none => (none, { s with data := fun k => if k = e.Key then some e.Value else s.data k })

/-- Modelled from the spec: `Storage.Delete`, remove the record under the key
if present, a no-op if absent; nothing is removed when the medium fails. -/
def Storage.Delete (s : Storage) (k : String) : Option Err × Storage :=
  match s.deleteErr k with
  | some err => (some err, s)
  | none => (none, { s with data := fun k' => if k' = k then none else s.data k' })

/-- Modelled from the spec: `logical.StorageEntryJSON`, the entry that holds
the serialised value under the given key. -/
def StorageEntryJSON (b : backend) (k : String) (v : roleEntry) : Except Err StorageEntry :=
  match b.encodeJSON v with
  | .error err => .error err
  | .ok bytes => .ok ⟨k, bytes⟩

/-- Modelled from the spec: `StorageEntry.DecodeJSON`, decode the bytes of an
entry; an error when they are malformed. -/
def DecodeJSON (b : backend) (e : StorageEntry) : Except Err roleEntry :=
  b.decodeJSON e.Value

/-- Modelled from the spec: `logical.ErrorResponse`, the user-facing error
response carrying a message. -/
def ErrorResponse (text : String) : Response :=
  { IsError := true, Data := [("error", text)] }

/-! ## Placeholder substitution -/

/-- The token of a placeholder key: the key between the two delimiters. -/
def placeholder (k : String) : List Char :=
  '{' :: '{' :: (k.data ++ ['}', '}'])

/-- The first key of the substitution map whose token starts the text, with
its value and the length of the token. -/
def matchKey (rest : List Char) : List (String × String) → Option (List Char × Nat)
  | [] => none
  | (k, v) :: ds =>
    if (placeholder k).isPrefixOf rest then some (v.data, (placeholder k).length)
    else matchKey rest ds

/-- One scan from left to right: `skip` characters of a token just replaced
are still to be passed over. -/
def renderAux (data : List (String × String)) : Nat → List Char → List Char
  | _, [] => []
  | skip + 1, _ :: cs => renderAux data skip cs
  | 0, c :: cs =>
    match matchKey (c :: cs) data with
    | some (v, len) => v ++ renderAux data (len - 1) cs
    | none => c :: renderAux data 0 cs

/-- Modelled from the spec: `Query`, the template renderer of this package,
which is not in this file. The template is scanned from left to right; a
delimiter pair enclosing a key of the map is replaced, delimiters included, by
the mapped value; everything else is left untouched. -/
def Query (tpl : String) (data : List (String × String)) : String :=
  ⟨renderAux data 0 tpl.data⟩

/-- The relation between a template and its rendering that the scan is to
establish: the template is cut, from left to right, into characters that are
copied and tokens of keys of the map that are replaced by the mapped value; a
character is copied only where no token starts. -/
inductive Rendered (data : List (String × String)) : List Char → List Char → Prop where
  | done : Rendered data [] []
  | keep (c : Char) {l out : List Char} :
      (∀ p ∈ data, ¬ placeholder p.1 <+: c :: l) → Rendered data l out →
      Rendered data (c :: l) (c :: out)
  | replace {k v : String} {l out : List Char} :
      (k, v) ∈ data → Rendered data l out →
      Rendered data (placeholder k ++ l) (v.data ++ out)

/-- The substitution map of `pathRoleCreate`. -/
def testValues : List (String × String) :=
  [("name", "foo"), ("password", "bar"), ("expiration", "")]

/-! ## The functions of `path_roles.go` -/

/-- The method `Role`: look up and decode the record of role `n`. -/
def Role (b : backend) (s : Storage) (n : String) : Ret (Option roleEntry × Option Err) :=
  match s.Get ("role/" ++ n) with
  | .error err => ⟨(none, some err), s, [.get ("role/" ++ n)]⟩
  | .ok none => ⟨(none, none), s, [.get ("role/" ++ n)]⟩
  | .ok (some entry) =>
    match DecodeJSON b entry with
    | .error err => ⟨(none, some err), s, [.get ("role/" ++ n)]⟩
    | .ok result => ⟨(some result, none), s, [.get ("role/" ++ n)]⟩

/-- The handler `pathRoleDelete`. -/
def pathRoleDelete (_b : backend) (s : Storage) (name : String) :
    Ret (Option Response × Option Err) :=
  match s.Delete ("role/" ++ name) with
  | (some err, s1) => ⟨(none, some err), s1, [.delete ("role/" ++ name)]⟩
  | (none, s1) => ⟨(none, none), s1, [.delete ("role/" ++ name)]⟩

/-- The handler `pathRoleRead`. -/
def pathRoleRead (b : backend) (s : Storage) (name : String) :
    Ret (Option Response × Option Err) :=
  let r := Role b s name
  match r.val with
  | (_, some err) => ⟨(none, some err), r.st, r.calls⟩
  | (none, none) => ⟨(none, none), r.st, r.calls⟩
  | (some role, none) =>
    ⟨(some { IsError := false, Data := [("sql", role.SQL)] }, none), r.st, r.calls⟩

/-- The handler `pathRoleCreate`. -/
def pathRoleCreate (b : backend) (s : Storage) (name sql : String) :
    Ret (Option Response × Option Err) :=
  match b.DB s with
  | .error err => ⟨(none, some err), s, [.connect]⟩
  | .ok db =>
    match db.Prepare (Query sql testValues) with
    | .error err =>
      ⟨(some (ErrorResponse ("Error testing query: " ++ err)), none), s,
        [.connect, .prepare (Query sql testValues)]⟩
    | .ok stmt =>
      match StorageEntryJSON b ("role/" ++ name) ⟨sql⟩ with
      | .error err =>
        ⟨(none, some err), s, [.connect, .prepare (Query sql testValues), .close stmt]⟩
      | .ok entry =>
        match s.Put entry with
        | (some err, s1) =>
          ⟨(none, some err), s1,
            [.connect, .prepare (Query sql testValues), .close stmt, .put entry.Key entry.Value]⟩
        | (none, s1) =>
          ⟨(none, none), s1,
            [.connect, .prepare (Query sql testValues), .close stmt, .put entry.Key entry.Value]⟩

/-- The calls made to the database: prepare, execute and close. -/
def isDbOp : Event → Bool
  | .prepare _ => true
  | .exec _ => true
  | .close _ => true
  | _ => false

/-- The calls that write to the storage: put and delete. -/
def isWrite : Event → Bool
  | .put _ _ => true
  | .delete _ => true
  | _ => false

/-- The key a storage call is made on, if the call is a storage call. -/
def storageKey : Event → Option String
  | .get k => some k
  | .put k _ => some k
  | .delete k => some k
  | _ => none

/-! ## A concrete backend -/

/-- Escape the quote and the backslash of a JSON string body. -/
def escape : List Char → List Char
  | [] => []
  | c :: cs => if c = '"' ∨ c = '\\' then '\\' :: c :: escape cs else c :: escape cs

/-- Read an escaped string body up to its closing quote; the body and the
text after the quote. -/
def unescape : List Char → Option (List Char × List Char)
  | [] => none
  | c :: cs =>
    if c = '"' then some ([], cs)
    else if c = '\\' then
      match cs with
      | [] => none
      | d :: ds => (unescape ds).map (fun p => (d :: p.1, p.2))
    else (unescape cs).map (fun p => (c :: p.1, p.2))

/-- The opening of the serialised record, up to the quote of the body. -/
def jsonOpen : List Char := "\x7b\"sql\":\"".data

/-- A JSON encoder for `roleEntry`: an object with the single field `sql`. -/
def jsonEncode (r : roleEntry) : String :=
  ⟨jsonOpen ++ (escape r.SQL.data ++ ['"', '}'])⟩

/-- A decoder for the objects `jsonEncode` writes; anything else is malformed. -/
def jsonDecode (bytes : String) : Except Err roleEntry :=
  if jsonOpen.isPrefixOf bytes.data then
    match unescape (bytes.data.drop jsonOpen.length) with
    | some (body, ['}']) => .ok ⟨⟨body⟩⟩
    | _ => .error "invalid character"
  else .error "unexpected input"

/-- A database that prepares the `CREATE ROLE` statements and refuses the rest. -/
def sampleDB : DB :=
  ⟨fun q => if "CREATE ROLE ".data.isPrefixOf q.data then .ok 7
    else .error "pq: syntax error"⟩

/-- A backend with a configured connection and the JSON codec above. -/
def sampleBackend : backend :=
  { DB := fun _ => .ok sampleDB
    encodeJSON := fun r => .ok (jsonEncode r)
    decodeJSON := jsonDecode }

/-- A storage with no record, whose medium does not fail. -/
def emptyStorage : Storage :=
  { data := fun _ => none
    getErr := fun _ => none
    putErr := fun _ => none
    deleteErr := fun _ => none }

/-- A template that uses each of the three placeholders once. -/
def sampleSQL : String :=
  "CREATE ROLE \"\x7b\x7bname\x7d\x7d\" WITH LOGIN PASSWORD \x27\x7b\x7bpassword\x7d\x7d\x27 " ++
    "VALID UNTIL \x27\x7b\x7bexpiration\x7d\x7d\x27;"

/-- A template with a misspelled keyword. -/
def badSQL : String := "CREATE ROL \x7b\x7bname\x7d\x7d"

/-- The storage after the role `readonly` has been created in the empty one. -/
def seededStorage : Storage :=
  (pathRoleCreate sampleBackend emptyStorage "readonly" sampleSQL).st

/-- A template the sample database prepares and that the next one differs from. -/
def otherSQL : String := "CREATE ROLE \"\x7b\x7bname\x7d\x7d\" WITH LOGIN;"

/-- The storage after the role `admin` has been created next to `readonly`. -/
def twoRoles : Storage :=
  (pathRoleCreate sampleBackend seededStorage "admin" sampleSQL).st

/-- Whether the code of a character lies between two bounds. -/
def inRange (lo hi : Nat) (c : Char) : Bool :=
  decide (lo ≤ c.toNat) && decide (c.toNat ≤ hi)

/-- The length of the well-formed UTF-8 sequence that starts the bytes, and 0
when none does: a lead byte C2 to DF, E0 to EF or F0 to F4 followed by one, two
or three continuation bytes 80 to BF, the first of them within A0 to BF after
E0, 80 to 9F after ED, 90 to BF after F0 and 80 to 8F after F4. -/
def utf8Size : List Char → Nat
  | [] => 0
  | c :: cs =>
    if c.toNat < 0x80 then 1
    else if inRange 0xC2 0xDF c then
      match cs with
      | c1 :: _ => if inRange 0x80 0xBF c1 then 2 else 0
      | _ => 0
    else if inRange 0xE0 0xEF c then
      match cs with
      | c1 :: c2 :: _ =>
        if inRange (if c.toNat = 0xE0 then 0xA0 else 0x80)
            (if c.toNat = 0xED then 0x9F else 0xBF) c1 && inRange 0x80 0xBF c2
        then 3 else 0
      | _ => 0
    else if inRange 0xF0 0xF4 c then
      match cs with
      | c1 :: c2 :: c3 :: _ =>
        if inRange (if c.toNat = 0xF0 then 0x90 else 0x80)
            (if c.toNat = 0xF4 then 0x8F else 0xBF) c1 && inRange 0x80 0xBF c2 &&
            inRange 0x80 0xBF c3
        then 4 else 0
      | _ => 0
    else 0

/-- Copy the well-formed UTF-8 sequences and replace every other byte by the
three bytes EF BF BD of the replacement character U+FFFD; `copy` bytes of the
sequence just entered are still to be copied. -/
def coerceBytes : Nat → List Char → List Char
  | _, [] => []
  | copy + 1, c :: cs => c :: coerceBytes copy cs
  | 0, c :: cs =>
    match utf8Size (c :: cs) with
    | 0 => '\xef' :: '\xbf' :: '\xbd' :: coerceBytes 0 cs
    | k + 1 => c :: coerceBytes k cs

/-- The text coerced to valid UTF-8, as the JSON encoder of the Go library
coerces the strings it writes: bytes that are not part of a well-formed UTF-8
sequence are replaced by the replacement character. -/
def coerceUTF8 (t : String) : String :=
  ⟨coerceBytes 0 t.data⟩

/-- A backend whose JSON encoder coerces the text it writes to valid UTF-8. -/
def coercingBackend : backend :=
  { DB := fun _ => .ok sampleDB
    encodeJSON := fun r => .ok (jsonEncode ⟨coerceUTF8 r.SQL⟩)
    decodeJSON := jsonDecode }

/-- A template with the byte FF, which is not valid UTF-8, in a literal. -/
def rawSQL : String := "CREATE ROLE \"\x7b\x7bname\x7d\x7d\" PASSWORD \x27\xff\x27;"

/-- A backend whose `DB` looks up the connection settings under the key
`config/connection` of the storage it is handed, and fails when the storage
holds none. -/
def configBackend : backend :=
  { DB := fun s =>
      match s.Get "config/connection" with
      | .error err => .error err
      | .ok none => .error "configure the DB connection with config/connection first"
      | .ok (some _) => .ok sampleDB
    encodeJSON := fun r => .ok (jsonEncode r)
    decodeJSON := jsonDecode }

/-- The empty storage with connection settings stored under `config/connection`. -/
def configuredStorage : Storage :=
  { emptyStorage with
    data := fun k => if k = "config/connection" then some "\"postgres://localhost\"" else none }

/-! ## Unfolding lemmas -/

theorem create_no_handle {b : backend} {s : Storage} {e : Err} (n t : String)
    (hdb : b.DB s = .error e) :
    pathRoleCreate b s n t = ⟨(none, some e), s, [.connect]⟩ := by
  simp [pathRoleCreate, hdb]

theorem create_refused {b : backend} {s : Storage} {db : DB} {d : Err} (n : String) {t : String}
    (hdb : b.DB s = .ok db) (hp : db.Prepare (Query t testValues) = .error d) :
    pathRoleCreate b s n t =
      ⟨(some (ErrorResponse ("Error testing query: " ++ d)), none), s,
        [.connect, .prepare (Query t testValues)]⟩ := by
  simp [pathRoleCreate, hdb, hp]

theorem create_unencodable {b : backend} {s : Storage} {db : DB} {stmt : Stmt} {e : Err}
    (n : String) {t : String}
    (hdb : b.DB s = .ok db) (hp : db.Prepare (Query t testValues) = .ok stmt)
    (he : b.encodeJSON ⟨t⟩ = .error e) :
    pathRoleCreate b s n t =
      ⟨(none, some e), s, [.connect, .prepare (Query t testValues), .close stmt]⟩ := by
  simp [pathRoleCreate, hdb, hp, StorageEntryJSON, he]

theorem create_put_failed {b : backend} {s : Storage} {db : DB} {stmt : Stmt} {bytes : String}
    {e : Err} {n t : String}
    (hdb : b.DB s = .ok db) (hp : db.Prepare (Query t testValues) = .ok stmt)
    (he : b.encodeJSON ⟨t⟩ = .ok bytes) (hput : s.putErr ("role/" ++ n) = some e) :
    pathRoleCreate b s n t =
      ⟨(none, some e), s,
        [.connect, .prepare (Query t testValues), .close stmt, .put ("role/" ++ n) bytes]⟩ := by
  simp [pathRoleCreate, hdb, hp, StorageEntryJSON, he, Storage.Put, hput]

theorem create_stored {b : backend} {s : Storage} {db : DB} {stmt : Stmt} {bytes : String}
    {n t : String}
    (hdb : b.DB s = .ok db) (hp : db.Prepare (Query t testValues) = .ok stmt)
    (he : b.encodeJSON ⟨t⟩ = .ok bytes) (hput : s.putErr ("role/" ++ n) = none) :
    pathRoleCreate b s n t =
      ⟨(none, none),
        { s with data := fun k => if k = "role/" ++ n then some bytes else s.data k },
        [.connect, .prepare (Query t testValues), .close stmt, .put ("role/" ++ n) bytes]⟩ := by
  simp [pathRoleCreate, hdb, hp, StorageEntryJSON, he, Storage.Put, hput]

theorem read_of_role (b : backend) (s : Storage) (n : String) :
    (pathRoleRead b s n).val =
      match (Role b s n).val with
      | (_, some err) => (none, some err)
      | (none, none) => (none, none)
      | (some role, none) => (some { IsError := false, Data := [("sql", role.SQL)] }, none) := by
  unfold pathRoleRead
  rcases h : (Role b s n).val with ⟨_ | r, _ | e⟩ <;> simp [h]

theorem role_absent (b : backend) (s : Storage) (n : String)
    (hget : s.getErr ("role/" ++ n) = none) (hno : s.data ("role/" ++ n) = none) :
    (Role b s n).val = (none, none) := by
  simp [Role, Storage.Get, hget, hno]

theorem role_present (b : backend) (s : Storage) (n bytes : String)
    (hget : s.getErr ("role/" ++ n) = none) (hrec : s.data ("role/" ++ n) = some bytes) :
    (Role b s n).val =
      match b.decodeJSON bytes with
      | .error err => (none, some err)
      | .ok result => (some result, none) := by
  simp only [Role, Storage.Get, hget, hrec, Option.map_some', DecodeJSON]
  rcases b.decodeJSON bytes with e | r <;> rfl

theorem delete_done (b : backend) {s : Storage} {n : String}
    (hdel : s.deleteErr ("role/" ++ n) = none) :
    pathRoleDelete b s n =
      ⟨(none, none), { s with data := fun k => if k = "role/" ++ n then none else s.data k },
        [.delete ("role/" ++ n)]⟩ := by
  simp [pathRoleDelete, Storage.Delete, hdel]

theorem delete_failed (b : backend) {s : Storage} {n : String} {e : Err}
    (hdel : s.deleteErr ("role/" ++ n) = some e) :
    pathRoleDelete b s n = ⟨(none, some e), s, [.delete ("role/" ++ n)]⟩ := by
  simp [pathRoleDelete, Storage.Delete, hdel]

theorem role_key_injective {n m : String} (h : "role/" ++ n = "role/" ++ m) : n = m := by
  have h1 := congrArg String.data h
  simp only [String.data_append, List.append_cancel_left_eq] at h1
  exact String.ext h1

theorem create_storage (b : backend) (s : Storage) (n t : String) :
    (pathRoleCreate b s n t).st = s ∨
      ∃ bytes, b.encodeJSON ⟨t⟩ = .ok bytes ∧ s.putErr ("role/" ++ n) = none ∧
        (pathRoleCreate b s n t).st =
          { s with data := fun k => if k = "role/" ++ n then some bytes else s.data k } := by
  rcases hdb : b.DB s with e | db
  · rw [create_no_handle n t hdb]; exact Or.inl rfl
  · rcases hp : db.Prepare (Query t testValues) with d | stmt
    · rw [create_refused n hdb hp]; exact Or.inl rfl
    · rcases he : b.encodeJSON ⟨t⟩ with e | bytes
      · rw [create_unencodable n hdb hp he]; exact Or.inl rfl
      · rcases hput : s.putErr ("role/" ++ n) with _ | e
        · rw [create_stored hdb hp he hput]; exact Or.inr ⟨bytes, rfl, rfl, rfl⟩
        · rw [create_put_failed hdb hp he hput]; exact Or.inl rfl

theorem create_calls_keys (b : backend) (s : Storage) (n t : String) :
    ∀ e ∈ (pathRoleCreate b s n t).calls, ∀ k, storageKey e = some k → k = "role/" ++ n := by
  rcases hdb : b.DB s with e | db
  · rw [create_no_handle n t hdb]; simp [storageKey]
  · rcases hp : db.Prepare (Query t testValues) with d | stmt
    · rw [create_refused n hdb hp]; simp [storageKey]
    · rcases he : b.encodeJSON ⟨t⟩ with e | bytes
      · rw [create_unencodable n hdb hp he]; simp [storageKey]
      · rcases hput : s.putErr ("role/" ++ n) with _ | e
        · rw [create_stored hdb hp he hput]; simp [storageKey]
        · rw [create_put_failed hdb hp he hput]; simp [storageKey]

theorem create_prepares {b : backend} {s : Storage} {db : DB} (n t : String)
    (hdb : b.DB s = .ok db) :
    ∃ rest, (pathRoleCreate b s n t).calls =
      .connect :: .prepare (Query t testValues) :: rest := by
  rcases hp : db.Prepare (Query t testValues) with d | stmt
  · rw [create_refused n hdb hp]; exact ⟨_, rfl⟩
  · rcases he : b.encodeJSON ⟨t⟩ with e | bytes
    · rw [create_unencodable n hdb hp he]; exact ⟨_, rfl⟩
    · rcases hput : s.putErr ("role/" ++ n) with _ | e
      · rw [create_stored hdb hp he hput]; exact ⟨_, rfl⟩
      · rw [create_put_failed hdb hp he hput]; exact ⟨_, rfl⟩

theorem delete_storage (b : backend) (s : Storage) (n : String) :
    (pathRoleDelete b s n).st = s ∨
      (pathRoleDelete b s n).st =
        { s with data := fun k => if k = "role/" ++ n then none else s.data k } := by
  rcases hdel : s.deleteErr ("role/" ++ n) with _ | e
  · rw [delete_done b hdel]; exact Or.inr rfl
  · rw [delete_failed b hdel]; exact Or.inl rfl

theorem delete_calls (b : backend) (s : Storage) (n : String) :
    (pathRoleDelete b s n).calls = [.delete ("role/" ++ n)] := by
  rcases hdel : s.deleteErr ("role/" ++ n) with _ | e
  · rw [delete_done b hdel]
  · rw [delete_failed b hdel]

theorem role_congr (b : backend) {s s1 : Storage} {m : String}
    (hget : s1.getErr ("role/" ++ m) = s.getErr ("role/" ++ m))
    (hdata : s1.data ("role/" ++ m) = s.data ("role/" ++ m)) :
    (Role b s1 m).val = (Role b s m).val := by
  have hG : s1.Get ("role/" ++ m) = s.Get ("role/" ++ m) := by
    simp only [Storage.Get, hget, hdata]
  unfold Role
  rw [hG]
  rcases s.Get ("role/" ++ m) with e | _ | entry
  · rfl
  · rfl
  · dsimp only
    rcases DecodeJSON b entry with e | r <;> rfl

theorem matchKey_none (data : List (String × String)) (rest : List Char)
    (h : ∀ p ∈ data, ¬ placeholder p.1 <:+: rest) : matchKey rest data = none := by
  induction data with
  | nil => rfl
  | cons p ds ih =>
    obtain ⟨k, v⟩ := p
    have hk : ¬ placeholder k <:+: rest := h (k, v) (List.mem_cons_self _ _)
    have hpre : (placeholder k).isPrefixOf rest = false := by
      rw [Bool.eq_false_iff]
      intro hc
      exact hk ( List.isPrefixOf_iff_prefix.mp hc).isInfix
    simp only [matchKey, hpre, Bool.false_eq_true, if_false]
    exact ih (fun p hp => h p (List.mem_cons_of_mem _ hp))

theorem renderAux_untouched (data : List (String × String)) (l : List Char)
    (h : ∀ p ∈ data, ¬ placeholder p.1 <:+: l) : renderAux data 0 l = l := by
  induction l with
  | nil => rfl
  | cons c cs ih =>
    have hcs : ∀ p ∈ data, ¬ placeholder p.1 <:+: cs :=
      fun p hp hin => h p hp (List.infix_cons hin)
    simp only [renderAux, matchKey_none data (c :: cs) h, ih hcs]

theorem matchKey_found {data : List (String × String)} {rest v : List Char} {len : Nat}
    (h : matchKey rest data = some (v, len)) :
    ∃ k val, (k, val) ∈ data ∧ v = val.data ∧ len = (placeholder k).length ∧
      placeholder k <+: rest := by
  induction data with
  | nil => simp [matchKey] at h
  | cons p ds ih =>
    obtain ⟨k, val⟩ := p
    by_cases hpre : (placeholder k).isPrefixOf rest = true
    · simp only [matchKey, hpre, if_true, Option.some.injEq, Prod.mk.injEq] at h
      exact ⟨k, val, List.mem_cons_self _ _, h.1.symm, h.2.symm,
        List.isPrefixOf_iff_prefix.mp hpre⟩
    · simp only [matchKey, hpre, if_false] at h
      obtain ⟨k1, v1, hm, h1, h2, h3⟩ := ih h
      exact ⟨k1, v1, List.mem_cons_of_mem _ hm, h1, h2, h3⟩

theorem matchKey_missed {data : List (String × String)} {rest : List Char}
    (h : matchKey rest data = none) : ∀ p ∈ data, ¬ placeholder p.1 <+: rest := by
  induction data with
  | nil => simp
  | cons p ds ih =>
    obtain ⟨k, val⟩ := p
    by_cases hpre : (placeholder k).isPrefixOf rest = true
    · simp [matchKey, hpre] at h
    · simp only [matchKey, hpre, if_false] at h
      intro q hq
      rcases List.mem_cons.mp hq with rfl | hq
      · exact fun hc => hpre ( List.isPrefixOf_iff_prefix.mpr hc)
      · exact ih h q hq

theorem renderAux_skip (data : List (String × String)) (l : List Char) (k : Nat) :
    renderAux data k l = renderAux data 0 (l.drop k) := by
  induction l generalizing k with
  | nil => cases k <;> simp [renderAux]
  | cons c cs ih =>
    cases k with
    | zero => rfl
    | succ k => simp only [renderAux, List.drop_succ_cons]; exact ih k

theorem renderAux_rendered (data : List (String × String)) (n : Nat) :
    ∀ l : List Char, l.length ≤ n → Rendered data l (renderAux data 0 l) := by
  induction n with
  | zero =>
    intro l hl
    have : l = [] := List.length_eq_zero.mp (Nat.le_zero.mp hl)
    subst this
    exact Rendered.done
  | succ n ih =>
    intro l hl
    cases l with
    | nil => exact Rendered.done
    | cons c cs =>
      have hcs : cs.length ≤ n := by simpa using hl
      rcases hm : matchKey (c :: cs) data with _ | ⟨v, len⟩
      · simp only [renderAux, hm]
        exact Rendered.keep c (matchKey_missed hm) (ih cs hcs)
      · obtain ⟨k, val, hmem, hv, hlen, rest, hrest⟩ := matchKey_found hm
        have hpos : len = (len - 1) + 1 := by
          have : 0 < len := by rw [hlen]; simp [placeholder]
          omega
        have hdrop : cs.drop (len - 1) = rest := by
          have h1 : (c :: cs).drop len = rest := by
            rw [← hrest, hlen, List.drop_left]
          rw [hpos, List.drop_succ_cons] at h1
          exact h1
        have hshort : rest.length ≤ n := by
          rw [← hdrop, List.length_drop]
          omega
        simp only [renderAux, hm]
        rw [renderAux_skip, hdrop, hv, ← hrest]
        exact Rendered.replace hmem (ih rest hshort)

theorem unescape_escape (l tl : List Char) :
    unescape (escape l ++ '"' :: tl) = some (l, tl) := by
  induction l with
  | nil => rw [escape, List.nil_append, unescape.eq_def]; simp
  | cons c cs ih =>
    by_cases hc : c = '"' ∨ c = '\\'
    · rw [escape, if_pos hc, List.cons_append, List.cons_append, unescape.eq_def]
      simp [ih]
    · have h1 : c ≠ '"' := fun h => hc (Or.inl h)
      have h2 : c ≠ '\\' := fun h => hc (Or.inr h)
      rw [escape, if_neg hc, List.cons_append, unescape.eq_def]
      simp [ih, h1, h2]

theorem json_round_trip (r : roleEntry) : jsonDecode (jsonEncode r) = .ok r := by
  have hpre : jsonOpen.isPrefixOf (jsonOpen ++ (escape r.SQL.data ++ ['"', '}'])) = true := by
    rw [ List.isPrefixOf_iff_prefix]
    exact List.prefix_append _ _
  simp only [jsonDecode, jsonEncode, hpre, if_true, List.drop_left, unescape_escape]

theorem coercing_round_trip (t : String) (h : coerceUTF8 t = t) :
    coercingBackend.decodeJSON (jsonEncode ⟨coerceUTF8 t⟩) = .ok ⟨t⟩ := by
  show jsonDecode (jsonEncode ⟨coerceUTF8 t⟩) = .ok ⟨t⟩
  rw [json_round_trip, h]

theorem sample_accepts : sampleDB.Prepare (Query sampleSQL testValues) = .ok 7 := by rfl

theorem sample_refuses :
    sampleDB.Prepare (Query badSQL testValues) = .error "pq: syntax error" := by rfl

/-! ## Rejected templates -/

/-- C3. When the database refuses to prepare the rendered template,
`pathRoleCreate` makes no put and no delete call, and the storage it leaves is
the storage it was given, so every key holds what it held before. -/
theorem create_refused_storage_untouched (b : backend) (s : Storage) (n t : String) (db : DB)
    (d : Err) (hdb : b.DB s = .ok db) (hp : db.Prepare (Query t testValues) = .error d) :
    (pathRoleCreate b s n t).st = s ∧
      (∀ e ∈ (pathRoleCreate b s n t).calls, isWrite e = false) ∧
      ∀ k, (pathRoleCreate b s n t).st.data k = s.data k := by
  rw [create_refused n hdb hp]
  refine ⟨rfl, ?_, fun _ => rfl⟩
  intro e he
  simp only [List.mem_cons, List.mem_singleton, List.not_mem_nil, or_false] at he
  rcases he with rfl | rfl <;> rfl

theorem create_refused_storage_untouched_witness :
    (pathRoleCreate sampleBackend seededStorage "readonly" badSQL).st = seededStorage ∧
      (∀ e ∈ (pathRoleCreate sampleBackend seededStorage "readonly" badSQL).calls,
        isWrite e = false) ∧
      ∀ k, (pathRoleCreate sampleBackend seededStorage "readonly" badSQL).st.data k =
        seededStorage.data k :=
  create_refused_storage_untouched sampleBackend seededStorage "readonly" badSQL sampleDB
    "pq: syntax error" rfl sample_refuses

/-- C7. When the database refuses to prepare the rendered template with the
diagnostic `d`, `pathRoleCreate` returns a nil error and an error response
whose message is `Error testing query: ` followed by `d`, so the message
contains `d` unaltered. -/
theorem create_refused_carries_diagnostic (b : backend) (s : Storage) (n t : String) (db : DB)
    (d : Err) (hdb : b.DB s = .ok db) (hp : db.Prepare (Query t testValues) = .error d) :
    (pathRoleCreate b s n t).val =
        (some { IsError := true, Data := [("error", "Error testing query: " ++ d)] }, none) ∧
      ∃ msg pre post, (pathRoleCreate b s n t).val = (some (ErrorResponse msg), none) ∧
        msg = pre ++ d ++ post := by
  rw [create_refused n hdb hp]
  exact ⟨rfl, _, "Error testing query: ", "", rfl, by simp⟩

theorem create_refused_carries_diagnostic_witness :
    (pathRoleCreate sampleBackend emptyStorage "bad" badSQL).val =
        (some { IsError := true,
                Data := [("error", "Error testing query: " ++ "pq: syntax error")] }, none) ∧
      ∃ msg pre post, (pathRoleCreate sampleBackend emptyStorage "bad" badSQL).val =
          (some (ErrorResponse msg), none) ∧
        msg = pre ++ "pq: syntax error" ++ post :=
  create_refused_carries_diagnostic sampleBackend emptyStorage "bad" badSQL sampleDB
    "pq: syntax error" rfl sample_refuses

/-- C8. When the connection is obtainable, the database calls of
`pathRoleCreate` are one prepare of the template rendered by `Query` with the
map name to `foo`, password to `bar`, expiration to the empty string, followed
by one close of the handle if the prepare succeeded and by nothing if it
failed; no statement is executed, and a put comes only after the close. -/
theorem create_database_calls (b : backend) (s : Storage) (n t : String) (db : DB)
    (hdb : b.DB s = .ok db) :
    ((pathRoleCreate b s n t).calls.filter isDbOp =
        match db.Prepare (Query t [("name", "foo"), ("password", "bar"), ("expiration", "")]) with
        | .error _ =>
          [.prepare (Query t [("name", "foo"), ("password", "bar"), ("expiration", "")])]
        | .ok stmt =>
          [.prepare (Query t [("name", "foo"), ("password", "bar"), ("expiration", "")]),
            .close stmt]) ∧
      (∀ stmt, .exec stmt ∉ (pathRoleCreate b s n t).calls) ∧
      (∀ d, db.Prepare (Query t [("name", "foo"), ("password", "bar"), ("expiration", "")]) =
          .error d →
        (pathRoleCreate b s n t).calls =
          [.connect,
            .prepare (Query t [("name", "foo"), ("password", "bar"), ("expiration", "")])]) ∧
      ∀ stmt, db.Prepare (Query t [("name", "foo"), ("password", "bar"), ("expiration", "")]) =
          .ok stmt →
        ∃ rest, (pathRoleCreate b s n t).calls =
            [.connect,
              .prepare (Query t [("name", "foo"), ("password", "bar"), ("expiration", "")]),
              .close stmt] ++ rest ∧
          (rest = [] ∨ ∃ bytes, rest = [.put ("role/" ++ n) bytes]) := by
  have hmap : testValues = [("name", "foo"), ("password", "bar"), ("expiration", "")] := rfl
  rw [← hmap]
  rcases hp : db.Prepare (Query t testValues) with d | stmt
  · rw [create_refused n hdb hp]
    simp [isDbOp]
  · rcases he : b.encodeJSON ⟨t⟩ with e | bytes
    · rw [create_unencodable n hdb hp he]
      simp [isDbOp]
    · rcases hput : s.putErr ("role/" ++ n) with _ | e
      · rw [create_stored hdb hp he hput]
        simp [isDbOp]
      · rw [create_put_failed hdb hp he hput]
        simp [isDbOp]

theorem create_database_calls_witness :
    Query sampleSQL [("name", "foo"), ("password", "bar"), ("expiration", "")] =
        "CREATE ROLE \"foo\" WITH LOGIN PASSWORD \x27bar\x27 VALID UNTIL \x27\x27;" ∧
      (pathRoleCreate sampleBackend emptyStorage "readonly" sampleSQL).calls.filter isDbOp =
        [.prepare "CREATE ROLE \"foo\" WITH LOGIN PASSWORD \x27bar\x27 VALID UNTIL \x27\x27;",
          .close 7] ∧
      (∀ stmt, .exec stmt ∉ (pathRoleCreate sampleBackend emptyStorage "readonly" sampleSQL).calls) ∧
      ∃ rest, (pathRoleCreate sampleBackend emptyStorage "readonly" sampleSQL).calls =
          [.connect,
            .prepare "CREATE ROLE \"foo\" WITH LOGIN PASSWORD \x27bar\x27 VALID UNTIL \x27\x27;",
            .close 7] ++ rest ∧
        (rest = [] ∨ ∃ bytes, rest = [.put ("role/" ++ "readonly") bytes]) :=
  ⟨by decide,
    (create_database_calls sampleBackend emptyStorage "readonly" sampleSQL sampleDB rfl).1,
    (create_database_calls sampleBackend emptyStorage "readonly" sampleSQL sampleDB rfl).2.1,
    (create_database_calls sampleBackend emptyStorage "readonly" sampleSQL sampleDB rfl).2.2.2
      7 (by rfl)⟩

/-- C2, as stated, fails: in a storage that holds a record for `readonly`, a
create the database refuses returns the validation error, and the read that
follows returns the record that was there, not absent. -/
theorem create_refused_read_not_absent :
    sampleBackend.DB seededStorage = .ok sampleDB ∧
      sampleDB.Prepare (Query badSQL testValues) = .error "pq: syntax error" ∧
      (pathRoleCreate sampleBackend seededStorage "readonly" badSQL).val =
        (some (ErrorResponse "Error testing query: pq: syntax error"), none) ∧
      (pathRoleRead sampleBackend
          (pathRoleCreate sampleBackend seededStorage "readonly" badSQL).st "readonly").val =
        (some { IsError := false, Data := [("sql", sampleSQL)] }, none) ∧
      (pathRoleRead sampleBackend
          (pathRoleCreate sampleBackend seededStorage "readonly" badSQL).st "readonly").val ≠
        (none, none) := by
  refine ⟨rfl, sample_refuses, by decide, by decide, by decide⟩

/-- C2, amended. In a storage that holds no record for `n` and whose get does
not fail, a create whose rendered template the database refuses returns the
validation error, and the read that follows returns absent. -/
theorem create_refused_read_absent (b : backend) (s : Storage) (n t : String) (db : DB)
    (d : Err) (hdb : b.DB s = .ok db) (hp : db.Prepare (Query t testValues) = .error d)
    (hget : s.getErr ("role/" ++ n) = none) (hno : s.data ("role/" ++ n) = none) :
    (pathRoleCreate b s n t).val =
        (some (ErrorResponse ("Error testing query: " ++ d)), none) ∧
      (pathRoleRead b (pathRoleCreate b s n t).st n).val = (none, none) := by
  rw [create_refused n hdb hp]
  refine ⟨rfl, ?_⟩
  rw [read_of_role, role_absent b s n hget hno]

theorem create_refused_read_absent_witness :
    (pathRoleCreate sampleBackend emptyStorage "bad" badSQL).val =
        (some (ErrorResponse ("Error testing query: " ++ "pq: syntax error")), none) ∧
      (pathRoleRead sampleBackend
        (pathRoleCreate sampleBackend emptyStorage "bad" badSQL).st "bad").val = (none, none) :=
  create_refused_read_absent sampleBackend emptyStorage "bad" badSQL sampleDB
    "pq: syntax error" rfl sample_refuses rfl rfl

/-! ## Round trip, delete and overwrite -/

/-- C1, as stated, fails: its four conditions hold and the read after the
create returns another text than the template. The template holds the byte FF,
which is not valid UTF-8; the JSON encoder coerces the text it writes to valid
UTF-8, so the record stored, and read back, holds the replacement character
where the template holds FF. -/
theorem create_then_read_coerced :
    coercingBackend.DB emptyStorage = .ok sampleDB ∧
      sampleDB.Prepare (Query rawSQL testValues) = .ok 7 ∧
      emptyStorage.putErr ("role/" ++ "raw") = none ∧
      emptyStorage.getErr ("role/" ++ "raw") = none ∧
      (pathRoleCreate coercingBackend emptyStorage "raw" rawSQL).val = (none, none) ∧
      (pathRoleRead coercingBackend
          (pathRoleCreate coercingBackend emptyStorage "raw" rawSQL).st "raw").val =
        (some { IsError := false,
                Data := [("sql", "CREATE ROLE \"\x7b\x7bname\x7d\x7d\" PASSWORD " ++
                  "\x27\xef\xbf\xbd\x27;")] }, none) ∧
      (pathRoleRead coercingBackend
          (pathRoleCreate coercingBackend emptyStorage "raw" rawSQL).st "raw").val ≠
        (some { IsError := false, Data := [("sql", rawSQL)] }, none) := by
  refine ⟨rfl, rfl, rfl, rfl, by decide, by decide, by decide⟩

/-- C1, amended. When the connection is obtainable, the database prepares the
rendered template, the record serialises to bytes that decode back to it, and
the put and the get of the storage succeed, `pathRoleCreate` returns neither an
error nor a response, and the `pathRoleRead` that follows returns a response
whose field `sql` is the template `t` itself, not its rendered form. -/
theorem create_then_read (b : backend) (s : Storage) (n t : String) (db : DB) (stmt : Stmt)
    (bytes : String) (hdb : b.DB s = .ok db)
    (hp : db.Prepare (Query t testValues) = .ok stmt)
    (henc : b.encodeJSON ⟨t⟩ = .ok bytes) (hdec : b.decodeJSON bytes = .ok ⟨t⟩)
    (hput : s.putErr ("role/" ++ n) = none) (hget : s.getErr ("role/" ++ n) = none) :
    (pathRoleCreate b s n t).val = (none, none) ∧
      (pathRoleRead b (pathRoleCreate b s n t).st n).val =
        (some { IsError := false, Data := [("sql", t)] }, none) := by
  rw [create_stored hdb hp henc hput]
  refine ⟨rfl, ?_⟩
  have hrole := role_present b
    { s with data := fun k => if k = "role/" ++ n then some bytes else s.data k } n bytes
    hget (by simp)
  rw [read_of_role]
  dsimp only
  rw [hrole, hdec]

theorem create_then_read_witness :
    (pathRoleCreate sampleBackend emptyStorage "readonly" sampleSQL).val = (none, none) ∧
      (pathRoleRead sampleBackend
          (pathRoleCreate sampleBackend emptyStorage "readonly" sampleSQL).st "readonly").val =
        (some { IsError := false, Data := [("sql", sampleSQL)] }, none) :=
  create_then_read sampleBackend emptyStorage "readonly" sampleSQL sampleDB 7
    (jsonEncode ⟨sampleSQL⟩) rfl sample_accepts rfl (json_round_trip ⟨sampleSQL⟩) rfl rfl

/-- C4. When the storage does not fail, `pathRoleDelete` returns no error,
whether or not a record for `n` exists, and the `pathRoleRead` that follows
returns absent: a nil response and a nil error. -/
theorem delete_then_read (b : backend) (s : Storage) (n : String)
    (hdel : s.deleteErr ("role/" ++ n) = none) (hget : s.getErr ("role/" ++ n) = none) :
    (pathRoleDelete b s n).val = (none, none) ∧
      (pathRoleRead b (pathRoleDelete b s n).st n).val = (none, none) := by
  rw [delete_done b hdel]
  refine ⟨rfl, ?_⟩
  have hrole := role_absent b
    { s with data := fun k => if k = "role/" ++ n then none else s.data k } n
    hget (by simp)
  rw [read_of_role]
  dsimp only
  rw [hrole]

theorem delete_then_read_witness :
    (pathRoleDelete sampleBackend seededStorage "readonly").val = (none, none) ∧
      (pathRoleRead sampleBackend
        (pathRoleDelete sampleBackend seededStorage "readonly").st "readonly").val =
        (none, none) :=
  delete_then_read sampleBackend seededStorage "readonly" rfl rfl

/-- C5. The storage left by two calls of `pathRoleCreate` in a row with the
same name and template is the storage left by the first call. -/
theorem create_twice_storage (b : backend) (s : Storage) (n t : String) :
    (pathRoleCreate b (pathRoleCreate b s n t).st n t).st = (pathRoleCreate b s n t).st := by
  rcases create_storage b s n t with h1 | ⟨bytes, he, hput, h1⟩
  · rw [h1, h1]
  · rcases create_storage b (pathRoleCreate b s n t).st n t with h2 | ⟨bytes2, he2, -, h2⟩
    · exact h2
    · rw [h2]
      have hb : bytes2 = bytes := by
        rw [he] at he2
        exact (Except.ok.inj he2).symm
      subst hb
      rw [h1]
      simp only [Storage.mk.injEq, and_true]
      funext k
      by_cases hk : k = "role/" ++ n <;> simp [hk]

/-- C6. `Role` makes one call, a get of the key `role/` followed by the name.
It returns an error and no role exactly when that get fails or the payload
found does not decode; it returns a nil role and a nil error exactly when the
get succeeds and finds no record; in every other case it returns the decoded
record and a nil error. A record that does not decode is not reported absent. -/
theorem role_outcomes (b : backend) (s : Storage) (n : String) :
    (Role b s n).calls = [.get ("role/" ++ n)] ∧
      ((∃ e, (Role b s n).val = (none, some e)) ↔
        ((∃ e, s.Get ("role/" ++ n) = .error e) ∨
          ∃ entry e, s.Get ("role/" ++ n) = .ok (some entry) ∧ DecodeJSON b entry = .error e)) ∧
      ((Role b s n).val = (none, none) ↔ s.Get ("role/" ++ n) = .ok none) ∧
      (s.Get ("role/" ++ n) = .ok none ↔
        (s.getErr ("role/" ++ n) = none ∧ s.data ("role/" ++ n) = none)) ∧
      ((¬ ∃ e, (Role b s n).val = (none, some e)) → (Role b s n).val ≠ (none, none) →
        ∃ entry r, s.Get ("role/" ++ n) = .ok (some entry) ∧ DecodeJSON b entry = .ok r ∧
          (Role b s n).val = (some r, none)) ∧
      (∀ entry e, s.Get ("role/" ++ n) = .ok (some entry) → DecodeJSON b entry = .error e →
        (Role b s n).val ≠ (none, none)) := by
  refine ⟨?_, ?_, ?_, ?_, ?_, ?_⟩
  · unfold Role
    rcases s.Get ("role/" ++ n) with e | _ | entry
    · rfl
    · rfl
    · dsimp only
      rcases DecodeJSON b entry with e | r <;> rfl
  · unfold Role
    rcases s.Get ("role/" ++ n) with e | _ | entry
    · simp
    · simp
    · dsimp only
      rcases hd : DecodeJSON b entry with e | r <;> simp [hd]
  · unfold Role
    rcases s.Get ("role/" ++ n) with e | _ | entry
    · simp
    · simp
    · dsimp only
      rcases hd : DecodeJSON b entry with e | r <;> simp [hd]
  · unfold Storage.Get
    rcases s.getErr ("role/" ++ n) with _ | e
    · rcases s.data ("role/" ++ n) with _ | v <;> simp
    · simp
  · unfold Role
    rcases s.Get ("role/" ++ n) with e | _ | entry
    · simp
    · simp
    · dsimp only
      rcases hd : DecodeJSON b entry with e | r <;> simp [hd]
  · intro entry e hget hdec
    unfold Role
    rw [hget]
    dsimp only
    rw [hdec]
    simp

/-- C10, as stated, fails for `pathRoleCreate`, which does not touch the key
of the role only: it hands the storage to `b.DB`. With a backend whose `DB`
looks up the connection settings, two storages that differ under the key
`config/connection` only, and hold nothing under `role/readonly`, make the
same create fail in one and store the record in the other. -/
theorem create_depends_on_other_key :
    (∀ k, k ≠ "config/connection" → configuredStorage.data k = emptyStorage.data k) ∧
      configuredStorage.getErr = emptyStorage.getErr ∧
      configuredStorage.putErr = emptyStorage.putErr ∧
      configuredStorage.deleteErr = emptyStorage.deleteErr ∧
      "config/connection" ≠ "role/" ++ "readonly" ∧
      (pathRoleCreate configBackend emptyStorage "readonly" sampleSQL).val =
        (none, some "configure the DB connection with config/connection first") ∧
      (pathRoleCreate configBackend emptyStorage "readonly" sampleSQL).st.data
        ("role/" ++ "readonly") = none ∧
      (pathRoleCreate configBackend configuredStorage "readonly" sampleSQL).val = (none, none) ∧
      (pathRoleCreate configBackend configuredStorage "readonly" sampleSQL).st.data
        ("role/" ++ "readonly") = some (jsonEncode ⟨sampleSQL⟩) := by
  refine ⟨?_, rfl, rfl, rfl, by decide, by decide, by decide, by decide, by decide⟩
  intro k hk
  simp [configuredStorage, emptyStorage, hk]

/-- C10, amended. For distinct names `n` and `m`, neither `pathRoleCreate` nor
`pathRoleDelete` on `n` changes what `Role` returns for `m`: both leave every
key other than `role/` followed by `n` as it was, every put and every delete
they make is on that key, and distinct names have distinct keys. -/
theorem role_isolation (b : backend) (s : Storage) (n m t : String) (h : n ≠ m) :
    (Role b (pathRoleCreate b s n t).st m).val = (Role b s m).val ∧
      (Role b (pathRoleDelete b s n).st m).val = (Role b s m).val ∧
      (∀ k, k ≠ "role/" ++ n →
        (pathRoleCreate b s n t).st.data k = s.data k ∧
          (pathRoleDelete b s n).st.data k = s.data k) ∧
      (∀ e ∈ (pathRoleCreate b s n t).calls ++ (pathRoleDelete b s n).calls,
        isWrite e = true → storageKey e = some ("role/" ++ n)) ∧
      "role/" ++ n ≠ "role/" ++ m ∧
      Function.Injective (fun x : String => "role/" ++ x) := by
  have hkey : "role/" ++ m ≠ "role/" ++ n := fun hc => h (role_key_injective hc).symm
  have hc : ∀ k, k ≠ "role/" ++ n → (pathRoleCreate b s n t).st.data k = s.data k := by
    intro k hk
    rcases create_storage b s n t with h1 | ⟨bytes, -, -, h1⟩ <;> rw [h1]
    simp [hk]
  have hd : ∀ k, k ≠ "role/" ++ n → (pathRoleDelete b s n).st.data k = s.data k := by
    intro k hk
    rcases delete_storage b s n with h1 | h1 <;> rw [h1]
    simp [hk]
  have hcg : (pathRoleCreate b s n t).st.getErr = s.getErr := by
    rcases create_storage b s n t with h1 | ⟨bytes, -, -, h1⟩ <;> rw [h1]
  have hdg : (pathRoleDelete b s n).st.getErr = s.getErr := by
    rcases delete_storage b s n with h1 | h1 <;> rw [h1]
  refine ⟨role_congr b (by rw [hcg]) (hc _ hkey), role_congr b (by rw [hdg]) (hd _ hkey),
    fun k hk => ⟨hc k hk, hd k hk⟩, ?_, fun hc => h (role_key_injective hc),
    fun _ _ hxy => role_key_injective hxy⟩
  intro e he hw
  have hk : ∀ k, storageKey e = some k → k = "role/" ++ n := by
    intro k hk
    rcases List.mem_append.mp he with he | he
    · exact create_calls_keys b s n t e he k hk
    · rw [delete_calls] at he
      rw [List.mem_singleton] at he
      subst he
      simpa [storageKey] using hk.symm
  cases e <;> simp [isWrite] at hw
  · exact congrArg some (hk _ rfl)
  · exact congrArg some (hk _ rfl)

theorem role_isolation_witness :
    twoRoles.data ("role/" ++ "admin") = some (jsonEncode ⟨sampleSQL⟩) ∧
      (pathRoleCreate sampleBackend twoRoles "admin" otherSQL).st.data ("role/" ++ "admin") =
        some (jsonEncode ⟨otherSQL⟩) ∧
      (pathRoleDelete sampleBackend twoRoles "admin").st.data ("role/" ++ "admin") = none ∧
      (Role sampleBackend twoRoles "readonly").val = (some ⟨sampleSQL⟩, none) ∧
      (Role sampleBackend (pathRoleCreate sampleBackend twoRoles "admin" otherSQL).st
        "readonly").val = (Role sampleBackend twoRoles "readonly").val ∧
      (Role sampleBackend (pathRoleDelete sampleBackend twoRoles "admin").st
        "readonly").val = (Role sampleBackend twoRoles "readonly").val ∧
      (∀ k, k ≠ "role/" ++ "admin" →
        (pathRoleCreate sampleBackend twoRoles "admin" otherSQL).st.data k = twoRoles.data k ∧
          (pathRoleDelete sampleBackend twoRoles "admin").st.data k = twoRoles.data k) ∧
      (∀ e ∈ (pathRoleCreate sampleBackend twoRoles "admin" otherSQL).calls ++
          (pathRoleDelete sampleBackend twoRoles "admin").calls,
        isWrite e = true → storageKey e = some ("role/" ++ "admin")) ∧
      "role/" ++ "admin" ≠ "role/" ++ "readonly" ∧
      Function.Injective (fun x : String => "role/" ++ x) :=
  ⟨by decide, by decide, by decide, by decide,
    role_isolation sampleBackend twoRoles "admin" "readonly" otherSQL (by decide)⟩

/-! ## Exact-match substitution -/

/-- C9. The text `pathRoleCreate` prepares is obtained from the template by
replacing exact tokens of `name`, `password` and `expiration` by their values
and copying every other character. A template in which none of the three
tokens occurs is returned unchanged by `Query`, whatever other delimiter pairs
it holds, and it is that unchanged text `pathRoleCreate` prepares. -/
theorem query_exact_match (t : String) :
    Rendered testValues t.data (Query t testValues).data ∧
      (¬ placeholder "name" <:+: t.data → ¬ placeholder "password" <:+: t.data →
        ¬ placeholder "expiration" <:+: t.data →
        Query t testValues = t ∧
          ∀ (b : backend) (s : Storage) (n : String) (db : DB), b.DB s = .ok db →
            ∃ rest, (pathRoleCreate b s n t).calls = .connect :: .prepare t :: rest) := by
  refine ⟨renderAux_rendered testValues t.data.length t.data (Nat.le_refl _), ?_⟩
  intro hn hp he
  have hq : Query t testValues = t := by
    unfold Query
    rw [renderAux_untouched]
    intro p hp
    simp only [testValues, List.mem_cons, List.mem_singleton, List.not_mem_nil, or_false] at hp
    rcases hp with rfl | rfl | rfl <;> assumption
  refine ⟨hq, fun b s n db hdb => ?_⟩
  have := create_prepares n t hdb
  rwa [hq] at this

theorem query_exact_match_witness :
    Query "a \x7b\x7bnamex\x7d\x7d b" testValues = "a \x7b\x7bnamex\x7d\x7d b" ∧
      ∀ (b : backend) (s : Storage) (n : String) (db : DB), b.DB s = .ok db →
        ∃ rest, (pathRoleCreate b s n "a \x7b\x7bnamex\x7d\x7d b").calls =
          .connect :: .prepare "a \x7b\x7bnamex\x7d\x7d b" :: rest :=
  (query_exact_match "a \x7b\x7bnamex\x7d\x7d b").2 (by decide) (by decide) (by decide)

end Postgresql


